import Mathlib

/-!
Verification of the CSV reader application (`src/main.rs`).

The application state `MyApp`, its view-derivation functions
(`total_pages`, `perform_search`, `get_row_by_number`,
`filter_visible_columns`, `rows_to_display`) and the UI event handlers
(`stepEv`) are shallowly embedded below, translated directly from the
Rust source.  Machine integers are modelled as `Nat`; the `as u8` cast
in `perform_search` becomes `% 256`, and the fallible `parse` calls
become `Option`-valued parsers with the same success conditions.
Library string operations (`to_lowercase`, `trim`, `contains`,
`str::parse`) are modelled over the character list of the string so
that they evaluate on concrete inputs; `to_lowercase` is modelled on
the ASCII range.
-/

namespace CsvReader

/-- Substring containment on lists of characters:
`q` occurs inside `s` at some offset.  Models Rust `str::contains`. -/
def listContainsSub (s q : List Char) : Bool :=
  (List.range (s.length + 1)).any fun i => q.isPrefixOf (s.drop i)

/-- Models Rust `str::contains(&str)`: `q` is a substring of `s`. -/
def strContains (s q : String) : Bool :=
  listContainsSub s.data q.data

/-- Models Rust `str::to_lowercase` (restricted to the ASCII range). -/
def strToLower (s : String) : String :=
  ⟨s.data.map Char.toLower⟩

/-- Models Rust `str::trim`: drop whitespace from both ends. -/
def strTrim (s : String) : String :=
  ⟨((s.data.dropWhile Char.isWhitespace).reverse.dropWhile Char.isWhitespace).reverse⟩

/-- Decimal digit test. -/
def charIsDigit (c : Char) : Bool :=
  decide ('0' ≤ c) && decide (c ≤ '9')

/-- Value of a list of decimal digits. -/
def digitsVal (l : List Char) : Nat :=
  l.foldl (fun acc c => acc * 10 + (c.toNat - 48)) 0

/-- Models Rust unsigned integer parsing (`str::parse` for unsigned types,
before any range check): an optional leading `+` sign followed by a
non-empty string of decimal digits. -/
def parseNatRust (s : String) : Option Nat :=
  let t := match s.data with
    | '+' :: rest => rest
    | l => l
  if t.isEmpty then none
  else if t.all charIsDigit then some (digitsVal t) else none

/-- Models `str::parse::<u8>()`: parse succeeds only for values below 256. -/
def parseU8 (s : String) : Option Nat :=
  match parseNatRust s with
  | some n => if n < 256 then some n else none
  | none => none

/-- Models `str::parse::<usize>()` on a 64-bit target: parse succeeds only
for values below 2^64. -/
def parseUsize (s : String) : Option Nat :=
  match parseNatRust s with
  | some n => if n < 2 ^ 64 then some n else none
  | none => none

/-- The application state, translated field by field from `struct MyApp`.
`search_header` holds a `u8` in Rust; it is modelled as a `Nat` that the
parser keeps below 256. -/
structure MyApp where
  csv_header : List String
  csv_data : List (List String)
  current_page : Nat
  rows_per_page : Nat
  search_query : String
  search_header : Nat
  search_results : Option (List (List String))
  row_number_input : String
  selected_row : Option (List String)
  visible_columns : List Bool
  show_column_controls : Bool
  deriving Repr, DecidableEq

/-- Number of pages, from `MyApp::total_pages`, as a function of the data
and the rows-per-page setting. -/
def total_pages_count (data : List (List String)) (rows_per_page : Nat) : Nat :=
  if data.isEmpty then 1
  else (data.length + rows_per_page - 1) / rows_per_page

/-- `MyApp::total_pages`. -/
def MyApp.total_pages (app : MyApp) : Nat :=
  total_pages_count app.csv_data app.rows_per_page

/-- `MyApp::perform_search`: keep the data rows for which some cell at an
index whose `u8` cast equals `search_header` contains the lower-cased
query (case-insensitively).  `idx as u8` is `idx % 256`. -/
def MyApp.perform_search (app : MyApp) : List (List String) :=
  let query := strToLower app.search_query
  app.csv_data.filter fun row =>
    (row.enum.any fun p =>
      (p.1 % 256 == app.search_header) && strContains (strToLower p.2) query)

/-- `MyApp::get_row_by_number`: row number 1 is the header, row number
`n > 1` is data row `n - 2` when in range, otherwise nothing. -/
def MyApp.get_row_by_number (app : MyApp) (row_num : Nat) : Option (List String) :=
  if row_num == 1 then
    some app.csv_header
  else if row_num > 1 && row_num - 2 < app.csv_data.length then
    some (app.csv_data.getD (row_num - 2) [])
  else
    none

/-- `MyApp::filter_visible_columns`: keep the cells whose index is within
the visibility mask and marked visible. -/
def MyApp.filter_visible_columns (app : MyApp) (row : List String) : List String :=
  ((row.enum.filter fun p =>
      decide (p.1 < app.visible_columns.length) && app.visible_columns.getD p.1 false).map
    Prod.snd)

/-- `MyApp::get_visible_headers`. -/
def MyApp.get_visible_headers (app : MyApp) : List String :=
  app.filter_visible_columns app.csv_header

/-- The all-true mask installed by `MyApp::initialize_visible_columns`
when a CSV file is loaded. -/
def init_visible_columns (header : List String) : List Bool :=
  List.replicate header.length true

/-- `MyApp::toggle_all_columns` (the mask it installs). -/
def toggle_all_columns (header : List String) (visible : Bool) : List Bool :=
  List.replicate header.length visible

/-- `MyApp::visible_column_count`. -/
def MyApp.visible_column_count (app : MyApp) : Nat :=
  (app.visible_columns.filter fun v => v).length

/-- The slice of data rows shown on page `p` for page size `P`:
`data[start..end]` with `start = p * P` and `end = min ((p+1) * P) data.length`,
from the paged branch of `MyApp::update`. -/
def page_slice (data : List (List String)) (P p : Nat) : List (List String) :=
  (data.take (min ((p + 1) * P) data.length)).drop (p * P)

/-- The `rows_to_display` computation of `MyApp::update`: nothing when the
header is empty; otherwise the selected row (with the header, which is not
repeated when the selection is the header itself), else the search
results after the header, else the current page's slice after the header. -/
def MyApp.rows_to_display (app : MyApp) : List (List String) :=
  if app.csv_header.isEmpty then
    []
  else
    match app.selected_row with
    | some selected =>
        if selected ≠ app.csv_header then
          [app.csv_header, selected]
        else
          [app.csv_header]
    | none =>
        match app.search_results with
        | some results => app.csv_header :: results
        | none =>
            app.csv_header ::
              page_slice app.csv_data app.rows_per_page app.current_page

/-- The discrete UI events handled by `MyApp::update`.  File-dialog and
CSV-library outcomes are parameters of the corresponding events. -/
inductive Event where
  | loadOk (header : List String) (data : List (List String))
  | loadParseError
  | loadBadPath
  | loadCancelled
  | saveClick (writeError : Option String)
  | setSearchQuery (s : String)
  | setSearchHeaderText (s : String)
  | searchClick
  | clearSearchClick
  | setRowInput (s : String)
  | goClick
  | prevClick
  | nextClick
  | toggleControls
  | showAll
  | hideAll
  | toggleColumn (i : Nat)
  deriving Repr, DecidableEq

/-- One UI event step of `MyApp::update`: the next state together with the
list of messages printed to stderr during the step. -/
def stepEv (e : Event) (app : MyApp) : MyApp × List String :=
  match e with
  | .loadOk header data =>
      ({ app with
          csv_header := header
          csv_data := data
          current_page := 0
          search_query := ""
          search_results := none
          row_number_input := ""
          selected_row := none
          visible_columns := init_visible_columns header }, [])
  | .loadParseError => (app, [])
  | .loadBadPath => (app, ["Selected file path is not valid UTF-8"])
  | .loadCancelled => (app, [])
  | .saveClick writeError =>
      match writeError with
      | some err => (app, ["Error saving CSV: " ++ err])
      | none => (app, [])
  | .setSearchQuery s => ({ app with search_query := s }, [])
  | .setSearchHeaderText s =>
      ({ app with search_header := (parseU8 s).getD 0 }, [])
  | .searchClick =>
      ({ app with search_results := some app.perform_search, selected_row := none }, [])
  | .clearSearchClick =>
      ({ app with search_query := "", search_results := none }, [])
  | .setRowInput s => ({ app with row_number_input := s }, [])
  | .goClick =>
      match parseUsize (strTrim app.row_number_input) with
      | some row_num =>
          let app1 :=
            if row_num == 1 then
              { app with selected_row := some app.csv_header }
            else
              match app.get_row_by_number row_num with
              | some row => { app with selected_row := some row }
              | none => { app with selected_row := none }
          ({ app1 with search_results := none }, [])
      | none => (app, [])
  | .prevClick =>
      if app.current_page > 0 then
        ({ app with current_page := app.current_page - 1 }, [])
      else
        (app, [])
  | .nextClick =>
      if app.current_page + 1 < app.total_pages then
        ({ app with current_page := app.current_page + 1 }, [])
      else
        (app, [])
  | .toggleControls =>
      ({ app with show_column_controls := !app.show_column_controls }, [])
  | .showAll =>
      ({ app with visible_columns := toggle_all_columns app.csv_header true }, [])
  | .hideAll =>
      ({ app with visible_columns := toggle_all_columns app.csv_header false }, [])
  | .toggleColumn i =>
      if i < app.visible_columns.length then
        ({ app with
            visible_columns :=
              app.visible_columns.set i (!(app.visible_columns.getD i false)) }, [])
      else
        (app, [])

/-- The state installed by `main`: a default `MyApp` with
`rows_per_page = 100`. -/
def initApp : MyApp where
  csv_header := []
  csv_data := []
  current_page := 0
  rows_per_page := 100
  search_query := ""
  search_header := 0
  search_results := none
  row_number_input := ""
  selected_row := none
  visible_columns := []
  show_column_controls := false

/-- The states reachable from `initApp` by UI events. -/
inductive Reachable : MyApp → Prop
  | init : Reachable initApp
  | next (e : Event) (s : MyApp) : Reachable s → Reachable (stepEv e s).1

/-- A state as produced by a successful load of header `h` and data `d`. -/
def mkApp (h : List String) (d : List (List String)) : MyApp :=
  { initApp with
    csv_header := h,
    csv_data := d,
    visible_columns := init_visible_columns h }

/-- A loaded state with a pending search query and column index. -/
def searchApp (h : List String) (d : List (List String)) (q : String) (col : Nat) :
    MyApp :=
  { mkApp h d with
    search_query := q,
    search_header := col }

/-- A data row of 257 cells: 256 copies of `"x"` followed by one `"y"`. -/
def row257 : List String := List.replicate 256 "x" ++ ["y"]

/-- A state with no loaded table but a selected row (reachable only in
principle; the claim under test quantifies over all states). -/
def selApp : MyApp := { initApp with selected_row := some ["x"] }

/-- A three-row data set used in concrete pagination checks. -/
def d5 : List (List String) := [["a"], ["b"], ["c"]]

/-- A fully populated state used to observe the effect of a failed load. -/
def c8app : MyApp :=
  { searchApp ["a", "b"] [["x", "y"]] "q" 1 with
    search_results := some [["x", "y"]],
    selected_row := some ["x", "y"],
    row_number_input := "2" }

/-- A state whose row-number input is not numeric while a selection and
search results are present. -/
def c9app : MyApp :=
  { mkApp ["a"] [["v"]] with
    row_number_input := "abc",
    selected_row := some ["x"],
    search_results := some [["y"]] }

/-- A state with a well-formed (padded) numeric row-number input. -/
def c9okApp : MyApp :=
  { mkApp ["h"] [["a"], ["b"]] with
    row_number_input := " 3 ",
    search_results := some [["z"]] }

/-- The pagination invariant: the rows-per-page setting is the configured
100 and the page index is strictly below the page count. -/
def PageInv (s : MyApp) : Prop :=
  s.rows_per_page = 100 ∧ s.current_page < s.total_pages

/-! ### Bridge lemmas: `enum`-based iteration versus index-based iteration -/

lemma enumFrom_any_eq (l : List String) (n : Nat) (f : Nat → String → Bool) :
    ((List.enumFrom n l).any fun p => f p.1 p.2) =
      ((List.range l.length).any fun i => f (n + i) (l.getD i "")) := by
  induction l generalizing n with
  | nil => rfl
  | cons a l ih =>
    have hcomp : ((fun i => f (n + i) ((a :: l).getD i "")) ∘ Nat.succ) =
        fun i => f (n + 1 + i) (l.getD i "") := by
      funext i
      simp only [Function.comp_apply, Nat.succ_eq_add_one, List.getD_cons_succ]
      congr 1
      omega
    simp only [List.enumFrom, List.any_cons, List.length_cons, List.range_succ_eq_map,
      List.any_map, ih (n + 1), hcomp, Nat.add_zero, List.getD_cons_zero]

lemma enum_any_eq (l : List String) (f : Nat → String → Bool) :
    (l.enum.any fun p => f p.1 p.2) =
      ((List.range l.length).any fun i => f i (l.getD i "")) := by
  have h := enumFrom_any_eq l 0 f
  simpa using h

lemma enumFrom_filter_map_eq (l : List String) (n : Nat) (g : Nat → Bool) :
    (((List.enumFrom n l).filter fun p => g p.1).map Prod.snd) =
      (((List.range l.length).filter fun i => g (n + i)).map fun i => l.getD i "") := by
  induction l generalizing n with
  | nil => rfl
  | cons a l ih =>
    have hcomp : ((fun i => g (n + i)) ∘ Nat.succ) = fun i => g (n + 1 + i) := by
      funext i
      simp only [Function.comp_apply, Nat.succ_eq_add_one]
      congr 1
      omega
    have hmap : ∀ X : List Nat, (X.map Nat.succ).map (fun i => (a :: l).getD i "") =
        X.map fun i => l.getD i "" := by
      intro X
      rw [List.map_map]
      refine List.map_congr_left ?_
      intro i _
      simp [Nat.succ_eq_add_one]
    simp only [List.enumFrom, List.filter_cons, List.length_cons, List.range_succ_eq_map,
      List.filter_map, hcomp, Nat.add_zero, List.getD_cons_zero, ih (n + 1)]
    by_cases hg : g n
    · simp only [hg, if_pos, List.map_cons, List.getD_cons_zero, hmap]
      exact congrArg (a :: ·) (ih (n + 1))
    · simp only [hg, Bool.false_eq_true, if_false, hmap]
      exact ih (n + 1)

lemma enum_filter_map_eq (l : List String) (g : Nat → Bool) :
    ((l.enum.filter fun p => g p.1).map Prod.snd) =
      (((List.range l.length).filter fun i => g i).map fun i => l.getD i "") := by
  have h := enumFrom_filter_map_eq l 0 g
  simpa using h

/-! ### Supporting lemmas about the embedded functions -/

lemma isEmpty_false_of_ne_nil {α : Type} {l : List α} (h : l ≠ []) : l.isEmpty = false := by
  cases l with
  | nil => exact absurd rfl h
  | cons a l => rfl

/-- Membership in the search results, characterised by indices: a row is
kept iff it is a data row and some cell index congruent to the configured
column modulo 256 holds a matching cell. -/
lemma mem_perform_search_iff (app : MyApp) (row : List String) :
    row ∈ app.perform_search ↔
      row ∈ app.csv_data ∧
        ∃ i < row.length, i % 256 = app.search_header ∧
          strContains (strToLower (row.getD i "")) (strToLower app.search_query) = true := by
  unfold MyApp.perform_search
  rw [List.mem_filter]
  rw [enum_any_eq row
    (fun i c => (i % 256 == app.search_header) && strContains (strToLower c)
      (strToLower app.search_query))]
  simp [List.any_eq_true, List.mem_range, Bool.and_eq_true, beq_iff_eq]

lemma page_slice_eq_drop_take (data : List (List String)) (P p : Nat) :
    page_slice data P p = (data.drop (p * P)).take P := by
  unfold page_slice
  rw [List.drop_take, List.take_eq_take, List.length_drop]
  have h : (p + 1) * P = p * P + P := by ring
  omega

lemma flatten_chunks (P : Nat) :
    ∀ (k : Nat) (data : List (List String)), data.length ≤ k * P →
      ((List.range k).map fun p => (data.drop (p * P)).take P).flatten = data := by
  intro k
  induction k with
  | zero =>
    intro data h
    have hz : data = [] := List.eq_nil_of_length_eq_zero (by omega)
    subst hz
    rfl
  | succ k ih =>
    intro data h
    have hcomp : ((fun p => (data.drop (p * P)).take P) ∘ Nat.succ) =
        fun p => ((data.drop P).drop (p * P)).take P := by
      funext p
      simp only [Function.comp_apply, List.drop_drop]
      congr 2
      rw [Nat.succ_mul]
      omega
    have hlen : (data.drop P).length ≤ k * P := by
      rw [List.length_drop]
      have hs : (k + 1) * P = k * P + P := by ring
      omega
    rw [List.range_succ_eq_map, List.map_cons, List.flatten_cons, List.map_map, hcomp,
      ih (data.drop P) hlen]
    simp [List.take_append_drop]

lemma total_pages_pos (app : MyApp) (h : 0 < app.rows_per_page) : 0 < app.total_pages := by
  unfold MyApp.total_pages total_pages_count
  by_cases hd : app.csv_data.isEmpty
  · simp [hd]
  · simp only [hd, if_false, Bool.false_eq_true]
    have hlen : app.csv_data.length ≠ 0 := by
      intro h0
      rw [List.isEmpty_iff] at hd
      exact hd (List.eq_nil_of_length_eq_zero h0)
    exact (Nat.one_le_div_iff h).mpr (by omega)

/-- Every UI event preserves the pagination invariant. -/
lemma pageInv_step (e : Event) (s : MyApp) (h : PageInv s) : PageInv (stepEv e s).1 := by
  obtain ⟨hrpp, hpage⟩ := h
  cases e with
  | loadOk header data =>
    refine ⟨hrpp, ?_⟩
    exact total_pages_pos (stepEv (Event.loadOk header data) s).1 (by simp only [stepEv]; omega)
  | loadParseError => exact ⟨hrpp, hpage⟩
  | loadBadPath => exact ⟨hrpp, hpage⟩
  | loadCancelled => exact ⟨hrpp, hpage⟩
  | saveClick err => cases err <;> exact ⟨hrpp, hpage⟩
  | setSearchQuery q => exact ⟨hrpp, hpage⟩
  | setSearchHeaderText t => exact ⟨hrpp, hpage⟩
  | searchClick => exact ⟨hrpp, hpage⟩
  | clearSearchClick => exact ⟨hrpp, hpage⟩
  | setRowInput t => exact ⟨hrpp, hpage⟩
  | goClick =>
    rcases hp : parseUsize (strTrim s.row_number_input) with _ | n
    · simp only [stepEv, hp]
      exact ⟨hrpp, hpage⟩
    · simp only [stepEv, hp]
      split
      · exact ⟨hrpp, hpage⟩
      · split <;> exact ⟨hrpp, hpage⟩
  | prevClick =>
    simp only [stepEv]
    split
    · exact ⟨hrpp, Nat.lt_of_le_of_lt (Nat.sub_le _ _) hpage⟩
    · exact ⟨hrpp, hpage⟩
  | nextClick =>
    simp only [stepEv]
    split
    · rename_i hlt
      exact ⟨hrpp, hlt⟩
    · exact ⟨hrpp, hpage⟩
  | toggleControls => exact ⟨hrpp, hpage⟩
  | showAll => exact ⟨hrpp, hpage⟩
  | hideAll => exact ⟨hrpp, hpage⟩
  | toggleColumn i =>
    simp only [stepEv]
    split <;> exact ⟨hrpp, hpage⟩

lemma pageInv_reachable (s : MyApp) (h : Reachable s) : PageInv s := by
  induction h with
  | init => exact ⟨rfl, by decide⟩
  | next e s hs ih => exact pageInv_step e s ih

lemma filter_visible_columns_eq_range (app : MyApp) (row : List String) :
    app.filter_visible_columns row =
      (((List.range row.length).filter fun i =>
          decide (i < app.visible_columns.length) && app.visible_columns.getD i false).map
        fun i => row.getD i "") :=
  enum_filter_map_eq row
    (fun i => decide (i < app.visible_columns.length) && app.visible_columns.getD i false)

lemma filter_range_lt (m n : Nat) :
    ((List.range m).filter fun i => decide (i < n)) = List.range (min n m) := by
  induction m with
  | zero => simp
  | succ m ih =>
    rw [List.range_succ, List.filter_append, ih]
    by_cases h : m < n
    · rw [(by omega : min n (m + 1) = m + 1), (by omega : min n m = m), List.range_succ]
      simp [h]
    · rw [(by omega : min n (m + 1) = min n m)]
      simp [h]

lemma map_getD_range (l : List String) (k : Nat) (hk : k ≤ l.length) :
    ((List.range k).map fun i => l.getD i "") = l.take k := by
  induction k with
  | zero => simp
  | succ k ih =>
    have hk2 : k < l.length := by omega
    rw [List.range_succ, List.map_append, ih (by omega), List.take_succ]
    simp [List.getD_eq_getElem?_getD, List.getElem?_eq_getElem hk2]

/-! ### C1: display precedence of the View Projector -/

/-- Claim C1 counterexample: with an empty header and a selected row, the
display is empty rather than `[header, selected row]` as the claim states
for every Table and ViewState. -/
theorem c1_empty_header_counterexample :
    selApp.selected_row = some ["x"] ∧ (["x"] : List String) ≠ selApp.csv_header ∧
      selApp.rows_to_display ≠ [selApp.csv_header, ["x"]] := by
  refine ⟨rfl, by decide, by decide⟩

/-- Claim C1 (amended): provided the header is nonempty, a selected row is
displayed as `[header, selected row]` with the header not repeated exactly
when the selection is the header row itself; otherwise present search
results are displayed as `[header] ++ results`.  Both branches take
priority over the paged branch. -/
theorem c1_display_precedence (app : MyApp) (hne : app.csv_header ≠ []) :
    (∀ sel, app.selected_row = some sel →
      app.rows_to_display =
        if sel = app.csv_header then [app.csv_header] else [app.csv_header, sel]) ∧
    (∀ res, app.selected_row = none → app.search_results = some res →
      app.rows_to_display = app.csv_header :: res) := by
  have hmt : app.csv_header.isEmpty = false := isEmpty_false_of_ne_nil hne
  constructor
  · intro sel hsel
    by_cases h : sel = app.csv_header
    · simp [MyApp.rows_to_display, hmt, hsel, h]
    · simp [MyApp.rows_to_display, hmt, hsel, h]
  · intro res hsel hres
    simp [MyApp.rows_to_display, hmt, hsel, hres]

/-- Claim C1 witness: the amended statement at a loaded single-row table,
once with a selection and once with search results. -/
theorem c1_display_precedence_witness :
    ({ mkApp ["h"] [["a"]] with selected_row := some ["a"] } : MyApp).rows_to_display =
        (if (["a"] : List String) = (mkApp ["h"] [["a"]]).csv_header
          then [(mkApp ["h"] [["a"]]).csv_header]
          else [(mkApp ["h"] [["a"]]).csv_header, ["a"]]) ∧
      ({ mkApp ["h"] [["a"]] with search_results := some [["a"]] } : MyApp).rows_to_display =
        (mkApp ["h"] [["a"]]).csv_header :: [["a"]] :=
  ⟨(c1_display_precedence { mkApp ["h"] [["a"]] with selected_row := some ["a"] }
      (by decide)).1 ["a"] rfl,
    (c1_display_precedence { mkApp ["h"] [["a"]] with search_results := some [["a"]] }
      (by decide)).2 [["a"]] rfl rfl⟩

/-! ### C2: the search is column-scoped, not whole-row -/

/-- Claim C2 counterexample: with query `"y"` and column index 0, the row
`["x", "y"]` has a cell containing the query, yet the search result is
empty — there is no whole-row search mode. -/
theorem c2_whole_row_counterexample :
    (searchApp ["a", "b"] [["x", "y"]] "y" 0).perform_search = [] ∧
      ["x", "y"] ∈ (searchApp ["a", "b"] [["x", "y"]] "y" 0).csv_data ∧
      (["x", "y"].any fun c =>
        strContains (strToLower c)
          (strToLower (searchApp ["a", "b"] [["x", "y"]] "y" 0).search_query)) = true := by
  refine ⟨by decide, by decide, by decide⟩

/-- Claim C2 (amended): for every table and query, a data row is included
in the search results iff at least one of its cells whose index, cast to
8 bits (taken modulo 256), equals the configured column index, lower-cased,
contains the lower-cased query as a substring. -/
theorem c2_search_column_scoped (app : MyApp) (row : List String) :
    row ∈ app.perform_search ↔
      row ∈ app.csv_data ∧
        ∃ i < row.length, i % 256 = app.search_header ∧
          strContains (strToLower (row.getD i "")) (strToLower app.search_query) = true :=
  mem_perform_search_iff app row

/-- Claim C2 witness: the amended characterisation instantiated to show a
concrete membership. -/
theorem c2_search_column_scoped_witness :
    ["x", "y"] ∈ (searchApp ["a", "b"] [["x", "y"]] "y" 1).perform_search :=
  (c2_search_column_scoped (searchApp ["a", "b"] [["x", "y"]] "y" 1) ["x", "y"]).mpr
    ⟨by decide, 1, by decide, by decide, by decide⟩

/-! ### C3: column-scoped search semantics -/

set_option maxRecDepth 20000 in
/-- Claim C3 counterexample: for a row of 257 cells, the `idx as u8` cast
wraps, so the row matches through cell 256 even though its cell at the
configured column index 0 does not contain the query. -/
theorem c3_u8_wrap_counterexample :
    (searchApp ["a"] [row257] "y" 0).perform_search = [row257] ∧
      strContains (strToLower (row257.getD 0 ""))
        (strToLower (searchApp ["a"] [row257] "y" 0).search_query) = false := by
  constructor
  · decide
  · decide

/-- Claim C3 (amended): for rows of at most 256 cells and a column index
below 256 the row matches iff its cell at the configured column index
exists and, lower-cased, contains the lower-cased query (in general the
row index is compared as a `u8`, i.e. modulo 256); an unparseable
column-index input defaults to column 0; and the concrete example matches
only the first row. -/
theorem c3_column_scoped (app : MyApp) :
    (∀ row : List String, row.length ≤ 256 → app.search_header < 256 →
      (row ∈ app.perform_search ↔
        row ∈ app.csv_data ∧ app.search_header < row.length ∧
          strContains (strToLower (row.getD app.search_header ""))
            (strToLower app.search_query) = true)) ∧
    (∀ s : String, parseU8 s = none →
      (stepEv (Event.setSearchHeaderText s) app).1.search_header = 0) ∧
    (searchApp ["a", "b"] [["x", "y"], ["y", "x"]] "y" 1).perform_search = [["x", "y"]] := by
  refine ⟨?_, ?_, by decide⟩
  · intro row hrow hsh
    rw [mem_perform_search_iff]
    constructor
    · rintro ⟨hmem, i, hi, hmod, hc⟩
      have hieq : i = app.search_header := by
        have : i % 256 = i := Nat.mod_eq_of_lt (by omega)
        omega
      subst hieq
      exact ⟨hmem, hi, hc⟩
    · rintro ⟨hmem, hlt, hc⟩
      exact ⟨hmem, app.search_header, hlt, Nat.mod_eq_of_lt hsh, hc⟩
  · intro s hs
    simp [stepEv, hs]

/-- Claim C3 witness: the amended statement instantiated at column index 0
and at an unparseable column-index input. -/
theorem c3_column_scoped_witness :
    (["y", "x"] ∈ (searchApp ["a", "b"] [["x", "y"], ["y", "x"]] "y" 0).perform_search) ∧
      (stepEv (Event.setSearchHeaderText "oops")
        (searchApp ["a", "b"] [["x", "y"], ["y", "x"]] "y" 1)).1.search_header = 0 :=
  ⟨((c3_column_scoped (searchApp ["a", "b"] [["x", "y"], ["y", "x"]] "y" 0)).1
      ["y", "x"] (by decide) (by decide)).mpr ⟨by decide, by decide, by decide⟩,
    (c3_column_scoped (searchApp ["a", "b"] [["x", "y"], ["y", "x"]] "y" 1)).2.1
      "oops" (by decide)⟩

/-! ### C4: row lookup by number -/

/-- Claim C4: row lookup returns the header for row number 1, data row
`n - 2` for every `n` in `[2, number_of_data_rows + 1]`, and nothing for
every other `n`, including 0 and numbers past the end. -/
theorem c4_row_lookup (app : MyApp) :
    app.get_row_by_number 1 = some app.csv_header ∧
    (∀ n, 2 ≤ n → n ≤ app.csv_data.length + 1 →
      app.get_row_by_number n = some (app.csv_data.getD (n - 2) [])) ∧
    (∀ n, n ≠ 1 → ¬(2 ≤ n ∧ n ≤ app.csv_data.length + 1) →
      app.get_row_by_number n = none) := by
  unfold MyApp.get_row_by_number
  refine ⟨rfl, ?_, ?_⟩
  · intro n h2 hle
    have h1 : (n == 1) = false := by simp; omega
    have hgt : (decide (n > 1) && decide (n - 2 < app.csv_data.length)) = true := by
      simp; omega
    simp [h1, hgt]
  · intro n hne hnot
    have h1 : (n == 1) = false := by simp [hne]
    have hgt : (decide (n > 1) && decide (n - 2 < app.csv_data.length)) = false := by
      simp; omega
    simp [h1, hgt]

/-- Claim C4 witness: lookups on a two-row table: row 3 is data row 1,
rows 0 and 4 are out of range. -/
theorem c4_row_lookup_witness :
    (mkApp ["h"] [["a"], ["b"]]).get_row_by_number 3 =
        some ((mkApp ["h"] [["a"], ["b"]]).csv_data.getD 1 []) ∧
      (mkApp ["h"] [["a"], ["b"]]).get_row_by_number 0 = none ∧
      (mkApp ["h"] [["a"], ["b"]]).get_row_by_number 4 = none :=
  ⟨(c4_row_lookup (mkApp ["h"] [["a"], ["b"]])).2.1 3 (by decide) (by decide),
    (c4_row_lookup (mkApp ["h"] [["a"], ["b"]])).2.2 0 (by decide) (by decide),
    (c4_row_lookup (mkApp ["h"] [["a"], ["b"]])).2.2 4 (by decide) (by decide)⟩

/-! ### C5: pagination partitions the data rows -/

/-- Claim C5: for every table and page size `P > 0`, concatenating the
page slices of all pages in page order reproduces the data rows exactly;
and in the paged branch the display is the header followed by the slice
`[page * P, min ((page+1) * P) total)` of the data rows. -/
theorem c5_pagination :
    (∀ (data : List (List String)) (P : Nat), 0 < P →
      ((List.range (total_pages_count data P)).map (page_slice data P)).flatten = data) ∧
    (∀ app : MyApp, app.csv_header ≠ [] → app.selected_row = none →
      app.search_results = none →
      app.rows_to_display =
        app.csv_header :: page_slice app.csv_data app.rows_per_page app.current_page) := by
  constructor
  · intro data P hP
    have hmapeq : (List.range (total_pages_count data P)).map (page_slice data P) =
        (List.range (total_pages_count data P)).map fun p => (data.drop (p * P)).take P :=
      List.map_congr_left fun p _ => page_slice_eq_drop_take data P p
    have hlen : data.length ≤ total_pages_count data P * P := by
      unfold total_pages_count
      by_cases hd : data.isEmpty
      · have : data = [] := List.isEmpty_iff.mp hd
        subst this
        simp
      · simp only [hd, if_false, Bool.false_eq_true]
        have hmod := Nat.div_add_mod (data.length + P - 1) P
        have hr : (data.length + P - 1) % P < P := Nat.mod_lt _ hP
        rw [mul_comm]
        omega
    rw [hmapeq]
    exact flatten_chunks P (total_pages_count data P) data hlen
  · intro app hne hsel hres
    have hmt : app.csv_header.isEmpty = false := isEmpty_false_of_ne_nil hne
    simp [MyApp.rows_to_display, hmt, hsel, hres]

/-- Claim C5 witness: three data rows at page size 2 are reproduced by
concatenating the pages, and the paged display of page 1 shows its slice. -/
theorem c5_pagination_witness :
    ((List.range (total_pages_count d5 2)).map (page_slice d5 2)).flatten = d5 ∧
      ({ mkApp ["h"] d5 with rows_per_page := 2, current_page := 1 } : MyApp).rows_to_display =
        (mkApp ["h"] d5).csv_header :: page_slice d5 2 1 :=
  ⟨c5_pagination.1 d5 2 (by decide),
    c5_pagination.2 { mkApp ["h"] d5 with rows_per_page := 2, current_page := 1 }
      (by decide) rfl rfl⟩

/-! ### C6: the page count -/

/-- Claim C6 counterexample: for the empty table `total_pages` is 1 while
the ceiling of `0 / rows_per_page` is 0, so `total_pages` does not equal
the ceiling there. -/
theorem c6_empty_table_counterexample :
    initApp.csv_data = [] ∧ initApp.rows_per_page = 100 ∧ initApp.total_pages = 1 ∧
      initApp.csv_data.length ⌈/⌉ initApp.rows_per_page = 0 ∧
      initApp.total_pages ≠ initApp.csv_data.length ⌈/⌉ initApp.rows_per_page := by
  refine ⟨rfl, rfl, by decide, by decide, by decide⟩

/-- Claim C6 (amended): with a positive rows-per-page setting,
`total_pages` is always at least 1; it equals 1 for the empty table and
equals the ceiling of `total_rows / rows_per_page` for nonempty tables. -/
theorem c6_total_pages (app : MyApp) (hP : 0 < app.rows_per_page) :
    1 ≤ app.total_pages ∧
      (app.csv_data = [] → app.total_pages = 1) ∧
      (app.csv_data ≠ [] →
        app.total_pages = app.csv_data.length ⌈/⌉ app.rows_per_page) := by
  refine ⟨?_, ?_, ?_⟩
  · unfold MyApp.total_pages total_pages_count
    by_cases hd : app.csv_data.isEmpty
    · simp [hd]
    · simp only [hd, if_false, Bool.false_eq_true]
      rw [Nat.one_le_div_iff hP]
      have : app.csv_data.length ≠ 0 := by
        intro h0
        exact absurd (List.isEmpty_iff.mpr (List.eq_nil_of_length_eq_zero h0)) (by simp [hd])
      omega
  · intro hd
    unfold MyApp.total_pages total_pages_count
    simp [hd]
  · intro hd
    unfold MyApp.total_pages total_pages_count
    have : app.csv_data.isEmpty = false := isEmpty_false_of_ne_nil hd
    simp [this, Nat.ceilDiv_eq_add_pred_div]

/-- Claim C6 witness: the amended statement at a loaded three-row table. -/
theorem c6_total_pages_witness :
    1 ≤ (mkApp ["h"] d5).total_pages ∧
      (mkApp ["h"] d5).total_pages = d5.length ⌈/⌉ (mkApp ["h"] d5).rows_per_page :=
  ⟨(c6_total_pages (mkApp ["h"] d5) (by decide)).1,
    (c6_total_pages (mkApp ["h"] d5) (by decide)).2.2 (by decide)⟩

/-! ### C7: the page index stays in range -/

/-- Claim C7: in every reachable state the page index is strictly below
the page count (hence within `[0, totalPages - 1]`); the Previous event at
page 0 and the Next event at the last page are no-ops. -/
theorem c7_page_in_range :
    (∀ s : MyApp, Reachable s → s.current_page < s.total_pages) ∧
    (∀ s : MyApp, s.current_page = 0 → stepEv Event.prevClick s = (s, [])) ∧
    (∀ s : MyApp, s.current_page = s.total_pages - 1 →
      stepEv Event.nextClick s = (s, [])) := by
  refine ⟨fun s h => (pageInv_reachable s h).2, ?_, ?_⟩
  · intro s h0
    simp only [stepEv]
    rw [if_neg (by omega : ¬s.current_page > 0)]
  · intro s hlast
    simp only [stepEv]
    rw [if_neg (by omega : ¬s.current_page + 1 < s.total_pages)]

/-- Claim C7 witness: the invariant and both boundary no-ops at the
initial state. -/
theorem c7_page_in_range_witness :
    initApp.current_page < initApp.total_pages ∧
      stepEv Event.prevClick initApp = (initApp, []) ∧
      stepEv Event.nextClick initApp = (initApp, []) :=
  ⟨c7_page_in_range.1 initApp Reachable.init,
    c7_page_in_range.2.1 initApp rfl,
    c7_page_in_range.2.2 initApp (by decide)⟩

/-! ### C8: behaviour on load parse failure -/

/-- Claim C8 counterexample: on a load parse error the state is left
unchanged but the list of printed messages is empty — the error is not
reported through any diagnostic channel, contrary to the claim. -/
theorem c8_silent_parse_error_counterexample :
    (stepEv Event.loadParseError c8app).2 = [] ∧
      (stepEv Event.loadParseError c8app).1 = c8app :=
  ⟨rfl, rfl⟩

/-- Claim C8 (amended): when load fails with a parse error the operation
is abandoned atomically — the prior table and every view-state field are
left unchanged — but no diagnostic message is printed. -/
theorem c8_load_failure_atomic :
    ∀ app : MyApp, (stepEv Event.loadParseError app).1 = app ∧
      (stepEv Event.loadParseError app).2 = [] :=
  fun _ => ⟨rfl, rfl⟩

/-! ### C9: row-lookup submit with malformed input -/

/-- Claim C9 counterexample: with the non-numeric row-number input
`"abc"`, the Go event leaves the previous selection in place (it is not
reset to no selection) and does not clear the search results. -/
theorem c9_malformed_input_counterexample :
    c9app.row_number_input = "abc" ∧
      parseUsize (strTrim c9app.row_number_input) = none ∧
      (stepEv Event.goClick c9app).1.selected_row = some ["x"] ∧
      (stepEv Event.goClick c9app).1.search_results = some [["y"]] := by
  refine ⟨rfl, by decide, by decide, by decide⟩

/-- Claim C9 (amended): a row-lookup submit whose trimmed input does not
parse as a number is a complete no-op (no error is surfaced and neither
the selection nor the search results change); a submit with a parsed
number sets the selection per the lookup rules and clears the search
results. -/
theorem c9_go_submit (app : MyApp) :
    (parseUsize (strTrim app.row_number_input) = none →
      stepEv Event.goClick app = (app, [])) ∧
    (∀ n, parseUsize (strTrim app.row_number_input) = some n →
      (stepEv Event.goClick app).1.selected_row = app.get_row_by_number n ∧
      (stepEv Event.goClick app).1.search_results = none) := by
  constructor
  · intro hp
    simp [stepEv, hp]
  · intro n hp
    simp only [stepEv, hp]
    by_cases h1 : (n == 1) = true
    · have hn : n = 1 := by simpa using h1
      subst hn
      simp [MyApp.get_row_by_number]
    · rcases hr : app.get_row_by_number n with _ | row
      · simp [h1, hr]
      · simp [h1, hr]

/-- Claim C9 witness: the no-op on the malformed input `"abc"` and the
selection plus cleared results on the well-formed input `" 3 "`. -/
theorem c9_go_submit_witness :
    stepEv Event.goClick c9app = (c9app, []) ∧
      (stepEv Event.goClick c9okApp).1.selected_row = c9okApp.get_row_by_number 3 ∧
      (stepEv Event.goClick c9okApp).1.search_results = none :=
  ⟨(c9_go_submit c9app).1 (by decide),
    ((c9_go_submit c9okApp).2 3 (by decide)).1,
    ((c9_go_submit c9okApp).2 3 (by decide)).2⟩

/-! ### C10: column filtering of a displayed row -/

/-- Claim C10: the column-filtered row keeps, in original order, exactly
the cells whose index is within the visibility mask and marked visible;
consequently, when the mask is all-true of the header's length, a ragged
row is truncated to the header length, so trailing cells are never
displayed. -/
theorem c10_filter_visible :
    (∀ (app : MyApp) (row : List String),
      app.filter_visible_columns row =
        (((List.range row.length).filter fun i =>
            decide (i < app.visible_columns.length) && app.visible_columns.getD i false).map
          fun i => row.getD i "")) ∧
    (∀ (app : MyApp) (n : Nat) (row : List String),
      app.visible_columns = List.replicate n true →
      app.filter_visible_columns row = row.take n) := by
  refine ⟨filter_visible_columns_eq_range, ?_⟩
  intro app n row hmask
  rw [filter_visible_columns_eq_range, hmask]
  have hpred : ∀ i : Nat,
      (decide (i < (List.replicate n true).length) &&
        (List.replicate n true).getD i false) = decide (i < n) := by
    intro i
    by_cases h : i < n
    · simp [List.length_replicate, h, List.getD_eq_getElem?_getD, List.getElem?_replicate]
    · simp [List.length_replicate, h, List.getD_eq_getElem?_getD, List.getElem?_replicate]
  simp only [hpred]
  rw [filter_range_lt, map_getD_range row (min n row.length) (by omega),
    List.take_eq_take]
  omega

/-- Claim C10 witness: a ragged three-cell row under a two-column header
with every column visible keeps exactly its first two cells. -/
theorem c10_filter_visible_witness :
    (mkApp ["a", "b"] [["u", "v", "w"]]).filter_visible_columns ["u", "v", "w"] =
      ["u", "v", "w"].take 2 :=
  c10_filter_visible.2 (mkApp ["a", "b"] [["u", "v", "w"]]) 2 ["u", "v", "w"] rfl

end CsvReader
